import Mathlib

/-!
# Address resolution (`src/ip.cpp`) and the request router (`src/xreq.hpp`)

A shallow embedding of the address-resolution functions of `ip.cpp`
(`resolve_nic_name`, `resolve_ip_interface`, `resolve_ip_hostname`,
`resolve_local_path`) over a byte-level model of the socket-address structures,
followed by the request router declared in `xreq.hpp` and the `bounce` test of
`tests/testutil.hpp`.

Conventions of the embedding:

* a C string is the list of its characters before the terminating NUL;
* memory is a list of byte values; the structures `sockaddr_in`, `sockaddr_in6`,
  `sockaddr_un` and `sockaddr_storage` are laid out as on Linux with a
  little-endian host;
* `errno`, the two output parameters and a trace of the calls made to the
  name-resolution services form the state that is passed explicitly;
* a failed `zmq_assert` (or a dereferenced null result) aborts the process and
  is the result `none`.
-/

set_option autoImplicit false

namespace zmq

/-! ## Platform constants (system headers, Linux) -/

/-- Memory contents: a list of byte values. -/
abbrev Mem := List Nat

/-- A C string: its characters before the terminating NUL. -/
abbrev CStr := List Char

def AF_UNIX : Nat := 1
def AF_INET : Nat := 2
def AF_INET6 : Nat := 10
def SOCK_STREAM : Nat := 1
def INADDR_ANY : Nat := 0

def ENOMEM : Nat := 12
def ENODEV : Nat := 19
def EINVAL : Nat := 22
def ENAMETOOLONG : Nat := 36

def AI_PASSIVE : Nat := 0x0001
def AI_NUMERICHOST : Nat := 0x0004
def AI_V4MAPPED : Nat := 0x0008
def AI_NUMERICSERV : Nat := 0x0400
def EAI_MEMORY : Int := -10

def sizeof_sockaddr_storage : Nat := 128
def sizeof_sockaddr_in : Nat := 16
def sizeof_sockaddr_in6 : Nat := 28
def sizeof_sockaddr_un : Nat := 110
def sizeof_sun_path : Nat := 108
def sizeof_in6_addr : Nat := 16

/-- The constant `in6addr_any`: sixteen zero bytes. -/
def in6addr_any : Mem := List.replicate 16 0

/-! ## C library primitives used by `ip.cpp` -/

/-- `memset (m, c, n)`: the first `n` bytes of `m` become `c`. -/
def memset (m : Mem) (c : Nat) (n : Nat) : Mem :=
  List.replicate n c ++ m.drop n

/-- `memcpy (dst, src, n)`: the first `n` bytes of `dst` become the first `n`
bytes of `src` (bytes read past the end of `src` read as 0). -/
def memcpy (dst src : Mem) (n : Nat) : Mem :=
  src.take n ++ List.replicate (n - src.length) 0 ++ dst.drop n

/-- Overwrite the bytes of `m` from offset `off` with `bytes`. -/
def write_at (m : Mem) (off : Nat) (bytes : Mem) : Mem :=
  m.take off ++ bytes ++ m.drop (off + bytes.length)

/-- Store a 16-bit value at offset `off` in host (little-endian) byte order. -/
def store16 (m : Mem) (off : Nat) (v : Nat) : Mem :=
  write_at m off [v % 256, v / 256 % 256]

/-- Store a 32-bit value at offset `off` in host (little-endian) byte order. -/
def store32 (m : Mem) (off : Nat) (v : Nat) : Mem :=
  write_at m off [v % 256, v / 256 % 256, v / 65536 % 256, v / 16777216 % 256]

/-- Load a 16-bit value at offset `off` in host (little-endian) byte order. -/
def load16 (m : Mem) (off : Nat) : Nat :=
  m.getD off 0 + 256 * m.getD (off + 1) 0

/-- `(uint16_t) x` for an `int` x. -/
def to_uint16 (x : Int) : Nat := (x % 65536).toNat

/-- `htons` on a little-endian host: swap the two bytes. -/
def htons (x : Nat) : Nat := (x % 256) * 256 + x / 256 % 256

/-- `htonl` on a little-endian host: reverse the four bytes. -/
def htonl (x : Nat) : Nat :=
  (x % 256) * 16777216 + (x / 256 % 256) * 65536 + (x / 65536 % 256) * 256
    + x / 16777216 % 256

/-- `strrchr (s, c)`: the offset of the last occurrence of `c` in `s`, or
`none` for the null pointer. -/
def strrchr (s : CStr) (c : Char) : Option Nat :=
  match s with
  | [] => none
  | x :: xs =>
    match strrchr xs c with
    | some i => some (i + 1)
    | none => if x = c then some 0 else none

/-- `isspace` in the C locale. -/
def isspace (c : Char) : Bool :=
  c = ' ' || (9 ≤ c.toNat && c.toNat ≤ 13)

/-- `isdigit`. -/
def isdigit (c : Char) : Bool :=
  48 ≤ c.toNat && c.toNat ≤ 57

/-- Value of the longest prefix of decimal digits, continuing from `acc`. -/
def parse_digits (acc : Nat) : CStr → Nat
  | [] => acc
  | c :: cs => if isdigit c then parse_digits (acc * 10 + (c.toNat - 48)) cs else acc

/-- Saturation of `strtol` to the range of `long` (64 bits). -/
def clamp_long (x : Int) : Int :=
  if x < -9223372036854775808 then -9223372036854775808
  else if 9223372036854775807 < x then 9223372036854775807
  else x

/-- `(int) x` for a `long` x: keep the low 32 bits, two's complement. -/
def to_int (x : Int) : Int :=
  (x + 2147483648) % 4294967296 - 2147483648

/-- `atoi` as in glibc, `(int) strtol (s, NULL, 10)`: skip white space, take an
optional sign and the longest run of decimal digits. -/
def atoi (s : CStr) : Int :=
  match s.dropWhile isspace with
  | '-' :: r => to_int (clamp_long (- (parse_digits 0 r : Int)))
  | '+' :: r => to_int (clamp_long (parse_digits 0 r))
  | r => to_int (clamp_long (parse_digits 0 r))

/-- The decimal numeral of `p`, most significant digit first (empty for 0). -/
def decimal (p : Nat) : CStr :=
  (Nat.digits 10 p).reverse.map (fun d => Char.ofNat (48 + d))

/-! ## State and environment -/

/-- The request structure handed to `getaddrinfo` (the fields `ip.cpp` sets;
all others are zeroed by `memset`). -/
structure addrinfo where
  ai_flags : Nat
  ai_family : Nat
  ai_socktype : Nat
  deriving DecidableEq, Repr

/-- One entry of the result list of `getaddrinfo`. -/
structure addrinfo_res where
  ai_addrlen : Nat
  ai_addr : Mem
  deriving DecidableEq, Repr

/-- A call made to one of the name-resolution services. -/
inductive Call where
  | nic_lookup (iface : CStr) (ipv4only : Bool)
  | addr_lookup (node service : CStr) (req : addrinfo)
  deriving DecidableEq, Repr

/-- What the caller of a resolution function can observe: the storage behind
`addr_`, the value behind `addr_len_`, `errno`, and the calls made so far to
`resolve_nic_name` and `getaddrinfo`. -/
structure State where
  addr : Mem
  addr_len : Nat
  errno : Nat
  calls : List Call
  deriving DecidableEq, Repr

/-- Result of `resolve_nic_name`: return code, `errno` afterwards, and the
contents of the buffer behind `addr_` afterwards. -/
structure nic_result where
  rc : Int
  errno : Nat
  addr : Mem
  deriving DecidableEq, Repr

/-- Result of `getaddrinfo`: return code, `errno` afterwards and the result
list (`res`; the empty list is the null pointer). -/
structure gai_result where
  rc : Int
  errno : Nat
  res : List addrinfo_res
  deriving DecidableEq, Repr

/-- The surroundings of a call: the platform's `resolve_nic_name` variant (it
gets the buffer, the name, the flag and `errno`; `none` is a failed assertion),
the system's `getaddrinfo`, and the uninitialised contents of the local
`sockaddr_storage ss`. -/
structure Env where
  resolve_nic_name : Mem → CStr → Bool → Nat → Option nic_result
  getaddrinfo : CStr → CStr → addrinfo → Nat → gai_result
  ss : Mem

/-! ## `resolve_nic_name` -/

/-- One node of the list returned by `getifaddrs`: the interface name and the
bytes behind `ifa_addr` (`none` for a null pointer). -/
structure ifaddrs where
  ifa_name : CStr
  ifa_addr : Option Mem
  deriving DecidableEq, Repr

/-- The loop of the `getifaddrs` variant of `resolve_nic_name`: the buffer
after the first matching entry was copied, or `none` when the list is exhausted
(`found` stays false). -/
def resolve_nic_name_loop (addr_ : Mem) (interface_ : CStr) (ipv4only_ : Bool) :
    List ifaddrs → Option Mem
  | [] => none
  | ifp :: ifa_next =>
    match ifp.ifa_addr with
    | none => resolve_nic_name_loop addr_ interface_ ipv4only_ ifa_next
    | some sa =>
      let family := load16 sa 0
      if (family = AF_INET ∨ (ipv4only_ = false ∧ family = AF_INET6))
          ∧ interface_ = ifp.ifa_name then
        some (memcpy addr_ sa
          (if family = AF_INET then sizeof_sockaddr_in else sizeof_sockaddr_in6))
      else resolve_nic_name_loop addr_ interface_ ipv4only_ ifa_next

/-- The variant of `resolve_nic_name` for platforms with `getifaddrs`
(`ip.cpp` lines 156-195). `getifaddrs_rc` and `ifa` are what `getifaddrs`
returned. -/
def resolve_nic_name_ifaddrs (getifaddrs_rc : Int) (ifa : List ifaddrs)
    (addr_ : Mem) (interface_ : CStr) (ipv4only_ : Bool) (errno : Nat) :
    Option nic_result :=
  if getifaddrs_rc ≠ 0 then none
  else if ifa = [] then none
  else
    match resolve_nic_name_loop addr_ interface_ ipv4only_ ifa with
    | none => some { rc := -1, errno := ENODEV, addr := addr_ }
    | some a => some { rc := 0, errno := errno, addr := a }

/-- The variant of `resolve_nic_name` for all other platforms
(`ip.cpp` lines 201-211). -/
def resolve_nic_name_fallback (addr_ : Mem) (_interface_ : CStr)
    (_ipv4only_ : Bool) (_errno : Nat) : Option nic_result :=
  some { rc := -1, errno := ENODEV, addr := addr_ }

/-! ## `resolve_ip_interface` -/

/-- The local `ip4_addr` after lines 247-251. -/
def ip4_addr (sin_port : Nat) : Mem :=
  store32 (store16 (store16 (memset (List.replicate sizeof_sockaddr_in 0) 0
    sizeof_sockaddr_in) 0 AF_INET) 2 sin_port) 4 (htonl INADDR_ANY)

/-- The local `ip6_addr` after lines 255-259. -/
def ip6_addr (sin_port : Nat) : Mem :=
  write_at (store16 (store16 (memset (List.replicate sizeof_sockaddr_in6 0) 0
    sizeof_sockaddr_in6) 0 AF_INET6) 2 sin_port) 8 (in6addr_any.take sizeof_in6_addr)

/-- The request built for literal resolution (lines 291-311, not Windows). -/
def interface_req (ipv4only_ : Bool) : addrinfo :=
  let ai_family := if ipv4only_ then AF_INET else AF_INET6
  let ai_flags := AI_PASSIVE ||| AI_NUMERICHOST ||| AI_NUMERICSERV
  { ai_family := ai_family
    ai_socktype := SOCK_STREAM
    ai_flags := if ai_family = AF_INET6 then ai_flags ||| AI_V4MAPPED else ai_flags }

/-- The function `zmq::resolve_ip_interface` (`ip.cpp` lines 215-331). The result is the
return code and the state afterwards, or `none` when an assertion fails. -/
def resolve_ip_interface (env : Env) (st : State) (interface_ : CStr)
    (ipv4only_ : Bool) : Option (Int × State) :=
  --  Find the ':' at end that separates NIC name from service.
  match strrchr interface_ ':' with
  | none => some (-1, { st with errno := EINVAL })
  | some delimiter =>
    --  Separate the name/port.
    let iface := interface_.take delimiter
    let service := interface_.drop (delimiter + 1)
    --  0 is not a valid port.
    let sin_port := htons (to_uint16 (atoi service))
    if sin_port = 0 then some (-1, { st with errno := EINVAL })
    else
      --  Initialize the output parameter.
      let addr0 := memset st.addr 0 sizeof_sockaddr_storage
      let out_addrlen := if ipv4only_ then sizeof_sockaddr_in else sizeof_sockaddr_in6
      let out_addr :=
        if ipv4only_ then memcpy env.ss (ip4_addr sin_port) out_addrlen
        else memcpy env.ss (ip6_addr sin_port) out_addrlen
      --  * resolves to INADDR_ANY or in6addr_any.
      if iface = ['*'] then
        if out_addrlen ≤ sizeof_sockaddr_storage then
          some (0, { st with addr := memcpy addr0 out_addr out_addrlen,
                             addr_len := out_addrlen })
        else none
      else
        --  Try to resolve the string as a NIC name.
        let calls1 := st.calls ++ [Call.nic_lookup iface ipv4only_]
        match env.resolve_nic_name out_addr iface ipv4only_ st.errno with
        | none => none
        | some r =>
          if r.rc ≠ 0 ∧ r.errno ≠ ENODEV then
            some (r.rc, { addr := addr0, addr_len := st.addr_len,
                          errno := r.errno, calls := calls1 })
          else if r.rc = 0 then
            if out_addrlen ≤ sizeof_sockaddr_storage then
              some (0, { addr := memcpy addr0 r.addr out_addrlen,
                         addr_len := out_addrlen, errno := r.errno,
                         calls := calls1 })
            else none
          else
            --  There's no such interface name. Assume literal address.
            let req := interface_req ipv4only_
            let calls2 := calls1 ++ [Call.addr_lookup iface service req]
            let g := env.getaddrinfo iface service req r.errno
            if g.rc ≠ 0 then
              some (-1, { addr := addr0, addr_len := st.addr_len,
                          errno := ENODEV, calls := calls2 })
            else
              --  Use the first result.
              match g.res with
              | [] => none
              | res :: _ =>
                if res.ai_addrlen ≤ sizeof_sockaddr_storage then
                  some (0, { addr := memcpy addr0 res.ai_addr res.ai_addrlen,
                             addr_len := res.ai_addrlen, errno := g.errno,
                             calls := calls2 })
                else none

/-! ## `resolve_ip_hostname` -/

/-- The request built for host-name resolution (lines 348-368, not Windows). -/
def hostname_req (ipv4only_ : Bool) : addrinfo :=
  let ai_family := if ipv4only_ then AF_INET else AF_INET6
  let ai_flags := AI_NUMERICSERV
  { ai_family := ai_family
    ai_socktype := SOCK_STREAM
    ai_flags := if ai_family = AF_INET6 then ai_flags ||| AI_V4MAPPED else ai_flags }

/-- The function `zmq::resolve_ip_hostname` (`ip.cpp` lines 333-396). -/
def resolve_ip_hostname (env : Env) (st : State) (hostname_ : CStr)
    (ipv4only_ : Bool) : Option (Int × State) :=
  --  Find the ':' that separates hostname name from service.
  match strrchr hostname_ ':' with
  | none => some (-1, { st with errno := EINVAL })
  | some delimiter =>
    --  Separate the hostname and service.
    let hostname := hostname_.take delimiter
    let service := hostname_.drop (delimiter + 1)
    --  Set up the query.
    let req := hostname_req ipv4only_
    let calls1 := st.calls ++ [Call.addr_lookup hostname service req]
    let g := env.getaddrinfo hostname service req st.errno
    if g.rc ≠ 0 then
      some (-1, { st with errno := if g.rc = EAI_MEMORY then ENOMEM else EINVAL,
                          calls := calls1 })
    else
      --  Copy first result to output addr with hostname and service.
      match g.res with
      | [] => none
      | res :: _ =>
        if res.ai_addrlen ≤ sizeof_sockaddr_storage then
          some (0, { addr := memcpy st.addr res.ai_addr res.ai_addrlen,
                     addr_len := res.ai_addrlen, errno := g.errno,
                     calls := calls1 })
        else none

/-! ## `resolve_local_path` -/

/-- The bytes of a C string in memory, without the terminator. -/
def cstr_bytes (s : CStr) : Mem := s.map Char.toNat

/-- `strcpy` to offset `off` of `m`: the characters and the terminating NUL. -/
def strcpy (m : Mem) (off : Nat) (s : CStr) : Mem :=
  write_at m off (cstr_bytes s ++ [0])

/-- The function `zmq::resolve_local_path` (`ip.cpp` lines 398-416), the branch for
platforms other than Windows and OpenVMS. `sun_family` is at offset 0 and
`sun_path` at offset 2 of `sockaddr_un`. -/
def resolve_local_path (st : State) (path_ : CStr) : Option (Int × State) :=
  if path_.length ≥ sizeof_sun_path then
    some (-1, { st with errno := ENAMETOOLONG })
  else
    let un := strcpy st.addr 2 path_
    let un := store16 un 0 AF_UNIX
    some (0, { st with addr := un, addr_len := sizeof_sockaddr_un })

/-! ## A sample environment -/

/-- The bytes of a `sockaddr_in` for port `port` and address `a.b.c.d`. -/
def sockaddr_in_bytes (port a b c d : Nat) : Mem :=
  [AF_INET, 0, port / 256 % 256, port % 256, a, b, c, d, 0, 0, 0, 0, 0, 0, 0, 0]

/-- A small stand-in for the system resolver, used to run the functions on
concrete inputs: it knows the IPv4 literal `127.0.0.1` and, unless
`AI_NUMERICHOST` is set, the name `localhost`, and accepts any non-empty
decimal service, as the system's `getaddrinfo` does. -/
def sample_getaddrinfo (node service : CStr) (req : addrinfo) (errno : Nat) :
    gai_result :=
  if req.ai_family = AF_INET ∧ service ≠ [] ∧ service.all isdigit = true
      ∧ (node = "127.0.0.1".toList
          ∨ (node = "localhost".toList ∧ req.ai_flags &&& AI_NUMERICHOST = 0)) then
    { rc := 0, errno := errno,
      res := [{ ai_addrlen := sizeof_sockaddr_in,
                ai_addr := sockaddr_in_bytes (atoi service).toNat 127 0 0 1 }] }
  else { rc := -2, errno := errno, res := [] }

/-- An environment without interface names (the fallback `resolve_nic_name`). -/
def sample_env : Env :=
  { resolve_nic_name := resolve_nic_name_fallback
    getaddrinfo := sample_getaddrinfo
    ss := List.replicate 128 170 }

/-- A list as `getifaddrs` returns it on a Linux host with a loopback and one
Ethernet interface: per interface a packet-level entry, then its IPv4 address
(whose port field is zero). -/
def sample_ifaddrs : List ifaddrs :=
  [ { ifa_name := "lo".toList,
      ifa_addr := some ([17, 0, 0, 0, 1, 0, 0, 0, 4, 3, 0, 6, 0, 0, 0, 0, 0, 0, 0, 0]) },
    { ifa_name := "eth0".toList,
      ifa_addr := some ([17, 0, 0, 0, 2, 0, 0, 0, 1, 0, 0, 6, 2, 66, 172, 17, 0, 2, 0, 0]) },
    { ifa_name := "lo".toList, ifa_addr := some (sockaddr_in_bytes 0 127 0 0 1) },
    { ifa_name := "eth0".toList, ifa_addr := some (sockaddr_in_bytes 0 192 168 1 2) } ]

/-- An environment with the `getifaddrs` variant of `resolve_nic_name`. -/
def ifaddrs_env : Env :=
  { resolve_nic_name := resolve_nic_name_ifaddrs 0 sample_ifaddrs
    getaddrinfo := sample_getaddrinfo
    ss := List.replicate 128 170 }

/-- A caller's state before the call: storage filled with `0xff`. -/
def st0 : State :=
  { addr := List.replicate 128 255, addr_len := 0, errno := 0, calls := [] }

end zmq

/-! # The request router (`src/xreq.hpp`) and the bounce test -/

namespace xs

/-! ## Messages and pipes -/

/-- Modelled from the spec: a message frame (`msg.hpp` is missing): its payload
bytes and its "more" flag. -/
structure msg_t where
  data : List Nat
  more : Bool
  deriving DecidableEq, Repr

/-- Modelled from the spec: the empty frame of a freshly initialised `msg_t`
(`msg.hpp` is missing). -/
def msg_t.init : msg_t := { data := [], more := false }

/-- Modelled from the spec: the pipe (`pipe.hpp` is missing), "a non-blocking,
bidirectional, single-producer/single-consumer channel connecting a socket to
one peer", bounded. One end of the channel holds the frames it can read; a
write goes to the queue of the other end, `peer`, up to that end's bound
`hwm`. -/
structure pipe_t where
  inq : List msg_t
  peer : Nat
  hwm : Nat
  deriving DecidableEq, Repr

/-- All pipe ends of the process; a pipe handle is an index into this list. -/
abbrev pipes_t := List pipe_t

/-- Modelled from the spec: the readiness probe `hasIn` of a pipe
(`pipe.hpp` is missing). -/
def check_read (ps : pipes_t) (h : Nat) : Bool :=
  match ps[h]? with
  | some p => !p.inq.isEmpty
  | none => false

/-- Modelled from the spec: the non-blocking `read` of a pipe (`pipe.hpp` is
missing): pops the oldest frame. -/
def pipe_read (ps : pipes_t) (h : Nat) : Option (msg_t × pipes_t) :=
  match ps[h]? with
  | none => none
  | some p =>
    match p.inq with
    | [] => none
    | m :: rest => some (m, ps.set h { p with inq := rest })

/-- Modelled from the spec: the readiness probe `hasOut` of a pipe
(`pipe.hpp` is missing): the peer's queue is below its bound. -/
def check_write (ps : pipes_t) (h : Nat) : Bool :=
  match ps[h]? with
  | none => false
  | some p =>
    match ps[p.peer]? with
    | none => false
    | some q => decide (q.inq.length < q.hwm)

/-- Modelled from the spec: the non-blocking `write` of a pipe (`pipe.hpp` is
missing): appends the frame to the peer's queue when there is capacity. -/
def pipe_write (ps : pipes_t) (h : Nat) (m : msg_t) : Option pipes_t :=
  match ps[h]? with
  | none => none
  | some p =>
    match ps[p.peer]? with
    | none => none
    | some q =>
      if q.inq.length < q.hwm then some (ps.set p.peer { q with inq := q.inq ++ [m] })
      else none

/-! ## Fair queue and load balancer -/

/-- Modelled from the spec: the fair queue `fq_t` (`fq.hpp` is missing): the
registry of inbound pipes in insertion order and the rotation cursor. -/
structure fq_t where
  pipes : List Nat
  current : Nat
  deriving DecidableEq, Repr

/-- Modelled from the spec: `attach` of the fair queue (`fq.cpp` is missing):
"appends pipe to the registry; does not reset the rotation cursor". -/
def fq_t.attach (fq : fq_t) (pipe_ : Nat) : fq_t :=
  { fq with pipes := fq.pipes ++ [pipe_] }

/-- Position of the first registered pipe, scanning once around from the cursor,
that satisfies `ready`. -/
def scan (ready : Nat → Bool) (pipes : List Nat) (current : Nat) : Option Nat :=
  ((List.range pipes.length).find?
      (fun i => ready (pipes.getD ((current + i) % pipes.length) 0))).map
    (fun i => (current + i) % pipes.length)

/-- Modelled from the spec: `recv` of the fair queue (`fq.cpp` is missing):
"starting from the rotation cursor, scans the registry at most once around for
a pipe with `hasIn() == true`; on the first hit, pops one frame [...], advances
the cursor to the position after the serving pipe, and returns success. If no
pipe has data, returns a would-block indication without mutating the cursor."
While the frame popped has the more flag the cursor stays on the serving pipe,
so that the continuation frames come from the same pipe. `none` is the
would-block indication. -/
def fq_t.recv (ps : pipes_t) (fq : fq_t) : Option (msg_t × pipes_t × fq_t) :=
  match scan (check_read ps) fq.pipes fq.current with
  | none => none
  | some pos =>
    match pipe_read ps (fq.pipes.getD pos 0) with
    | none => none
    | some (m, ps') =>
      some (m, ps', { fq with current := if m.more then pos
                                         else (pos + 1) % fq.pipes.length })

/-- Modelled from the spec: `hasIn` of the fair queue (`fq.cpp` is missing):
"true iff at least one registered pipe currently reports `hasIn() == true`;
does not consume". -/
def fq_t.has_in (ps : pipes_t) (fq : fq_t) : Bool :=
  fq.pipes.any (check_read ps)

/-- Modelled from the spec: the load balancer `lb_t` (`lb.hpp` is missing): the
registry of outbound pipes in insertion order and the rotation cursor. -/
structure lb_t where
  pipes : List Nat
  current : Nat
  deriving DecidableEq, Repr

/-- Modelled from the spec: `attach` of the load balancer (`lb.cpp` is
missing): "appends to registry". -/
def lb_t.attach (lb : lb_t) (pipe_ : Nat) : lb_t :=
  { lb with pipes := lb.pipes ++ [pipe_] }

/-- Modelled from the spec: `send` of the load balancer (`lb.cpp` is missing):
"starting at the rotation cursor, scans once around for a pipe with write
capacity; on hit, writes [...] (all frames go to the same pipe) and advances
the cursor past the serving pipe. If none have capacity, returns would-block
without mutating the cursor or the message." While the frame written has the
more flag the cursor stays on the serving pipe. `none` is would-block. -/
def lb_t.send (ps : pipes_t) (lb : lb_t) (msg_ : msg_t) : Option (pipes_t × lb_t) :=
  match scan (check_write ps) lb.pipes lb.current with
  | none => none
  | some pos =>
    match pipe_write ps (lb.pipes.getD pos 0) msg_ with
    | none => none
    | some ps' =>
      some (ps', { lb with current := if msg_.more then pos
                                      else (pos + 1) % lb.pipes.length })

/-- Modelled from the spec: `hasOut` of the load balancer (`lb.cpp` is
missing): "true iff at least one registered pipe currently reports write
capacity". -/
def lb_t.has_out (ps : pipes_t) (lb : lb_t) : Bool :=
  lb.pipes.any (check_write ps)

/-! ## The request router `xreq_t` -/

/-- The data members of `xs::xreq_t` (`xreq.hpp` lines 58-69). -/
structure xreq_t where
  fq : fq_t
  lb : lb_t
  prefetched : Bool
  prefetched_msg : msg_t
  deriving DecidableEq, Repr

/-- Modelled from the spec: the constructor of `xreq_t` (`xreq.cpp` is
missing): no pipes, prefetch slot empty. -/
def xreq_t.new : xreq_t :=
  { fq := { pipes := [], current := 0 }, lb := { pipes := [], current := 0 },
    prefetched := false, prefetched_msg := msg_t.init }

/-- Modelled from the spec: `xattach_pipe` (`xreq.cpp` is missing): "registers
the pipe with both FairQueue and LoadBalancer". -/
def xreq_t.xattach_pipe (x : xreq_t) (pipe_ : Nat) : xreq_t :=
  { x with fq := x.fq.attach pipe_, lb := x.lb.attach pipe_ }

/-- Modelled from the spec: `xsend` (`xreq.cpp` is missing): "delegates to
LoadBalancer.send. Signals a temporarily unavailable condition when
LoadBalancer reports no pipe has capacity" (`none`). -/
def xreq_t.xsend (ps : pipes_t) (x : xreq_t) (msg_ : msg_t) :
    Option (pipes_t × xreq_t) :=
  match x.lb.send ps msg_ with
  | none => none
  | some (ps', lb') => some (ps', { x with lb := lb' })

/-- Modelled from the spec: `xrecv` (`xreq.cpp` is missing): "if prefetch slot
is filled, returns its contents and clears the slot (no FairQueue access).
Otherwise delegates to FairQueue.recv directly. Signals temporarily
unavailable when FairQueue has nothing ready" (first component `none`). -/
def xreq_t.xrecv (ps : pipes_t) (x : xreq_t) : Option msg_t × pipes_t × xreq_t :=
  if x.prefetched then
    (some x.prefetched_msg, ps,
      { x with prefetched := false, prefetched_msg := msg_t.init })
  else
    match x.fq.recv ps with
    | none => (none, ps, x)
    | some (m, ps', fq') => (some m, ps', { x with fq := fq' })

/-- Modelled from the spec: `xhas_in` (`xreq.cpp` is missing): "if prefetch
slot is filled, returns true immediately. Otherwise attempts FairQueue.recv
into the prefetch slot as a side-effecting probe: on success, sets the slot
filled and returns true; on would-block, returns false." -/
def xreq_t.xhas_in (ps : pipes_t) (x : xreq_t) : Bool × pipes_t × xreq_t :=
  if x.prefetched then (true, ps, x)
  else
    match x.fq.recv ps with
    | none => (false, ps, x)
    | some (m, ps', fq') =>
      (true, ps', { x with fq := fq', prefetched := true, prefetched_msg := m })

/-- Modelled from the spec: `xhas_out` (`xreq.cpp` is missing): "delegates to
LoadBalancer.hasOut(); pure query, no side effect". -/
def xreq_t.xhas_out (ps : pipes_t) (x : xreq_t) : Bool :=
  x.lb.has_out ps

/-! ## Sequences of `xhas_in` and `xrecv` -/

/-- One call on the router's receive side. -/
inductive call_t where
  | has_in
  | recv
  deriving DecidableEq, Repr

/-- Run a sequence of calls; the result is the list of messages that the
`xrecv` calls delivered, in order, and the final state. -/
def run_calls : List call_t → pipes_t → xreq_t → List msg_t × pipes_t × xreq_t
  | [], ps, x => ([], ps, x)
  | call_t.has_in :: cs, ps, x =>
    match x.xhas_in ps with
    | (_, ps', x') => run_calls cs ps' x'
  | call_t.recv :: cs, ps, x =>
    match x.xrecv ps with
    | (none, ps', x') => run_calls cs ps' x'
    | (some m, ps', x') =>
      match run_calls cs ps' x' with
      | (ms, ps'', x'') => (m :: ms, ps'', x'')

/-- Number of frames queued in all pipes. -/
def queued (ps : pipes_t) : Nat :=
  (ps.map (fun p => p.inq.length)).sum

/-- The messages the fair queue delivers when it is read until it would block,
at most `fuel` of them. -/
def fq_drain : Nat → pipes_t → fq_t → List msg_t
  | 0, _, _ => []
  | fuel + 1, ps, fq =>
    match fq.recv ps with
    | none => []
    | some (m, ps', fq') => m :: fq_drain fuel ps' fq'

/-- The messages still to be delivered by a router: the prefetched one, if any,
then all the fair queue will deliver (no pipe holds more than `queued ps`
frames, which therefore is enough fuel). -/
def pending (ps : pipes_t) (x : xreq_t) : List msg_t :=
  (if x.prefetched then [x.prefetched_msg] else []) ++ fq_drain (queued ps) ps x.fq

/-! ## The socket interface and the bounce test -/

/-- Modelled from the spec: the "more frames follow" bit of the flags of
`xs_send` (`xs.h` is missing). -/
def XS_SNDMORE : Nat := 2

/-- Modelled from the spec: the "non-blocking" bit of the flags of `xs_send`
and `xs_recv` (`xs.h` is missing). -/
def XS_DONTWAIT : Nat := 1

/-- Modelled from the spec: the part of the socket (`socket_base.hpp` is
missing) around the router: the receive-side option that "reports whether the
most recently received frame has the more bit set". -/
structure socket_t where
  xreq : xreq_t
  rcvmore : Bool
  deriving DecidableEq, Repr

/-- Modelled from the spec: two sockets and the pipes of the process (the
context and the transport are missing). -/
structure pair_t where
  pipes : pipes_t
  sb : socket_t
  sc : socket_t
  deriving DecidableEq, Repr

/-- Modelled from the spec: a socket handle, the `void *` argument of the
interface functions (`xs.h` is missing). -/
inductive handle_t where
  | sb
  | sc
  deriving DecidableEq, Repr

/-- The socket behind a handle. -/
def pair_t.get (w : pair_t) : handle_t → socket_t
  | handle_t.sb => w.sb
  | handle_t.sc => w.sc

/-- Store the pipes and the socket behind a handle after a call. -/
def pair_t.put (w : pair_t) (ps : pipes_t) (s : socket_t) : handle_t → pair_t
  | handle_t.sb => { w with pipes := ps, sb := s }
  | handle_t.sc => { w with pipes := ps, sc := s }

/-- Modelled from the spec: a connected socket pair (the transport is
missing): one channel whose end 0 is attached to `sb` and whose end 1 is
attached to `sc`, both queues empty and bounded by `hwm`. -/
def connected_pair (hwm : Nat) : pair_t :=
  { pipes := [{ inq := [], peer := 1, hwm := hwm }, { inq := [], peer := 0, hwm := hwm }]
    sb := { xreq := xreq_t.new.xattach_pipe 0, rcvmore := false }
    sc := { xreq := xreq_t.new.xattach_pipe 1, rcvmore := false } }

/-- Modelled from the spec: `xs_send (s, buf, len, flags)` (`xs.cpp` is
missing): sends the first `len` bytes of `buf` as one frame, with the more
flag when `XS_SNDMORE` is given; returns `len`, or -1 when the frame cannot be
sent and `XS_DONTWAIT` is given. Without `XS_DONTWAIT` the call then waits for
the peer; nobody else runs here, so it does not return (`none`). -/
def xs_send (w : pair_t) (s : handle_t) (buf : List Nat) (len : Nat) (flags : Nat) :
    Option (Int × pair_t) :=
  let msg : msg_t := { data := buf.take len, more := flags &&& XS_SNDMORE ≠ 0 }
  match (w.get s).xreq.xsend w.pipes msg with
  | some (ps', x') => some (len, w.put ps' { w.get s with xreq := x' } s)
  | none => if flags &&& XS_DONTWAIT ≠ 0 then some (-1, w) else none

/-- Modelled from the spec: `xs_recv (s, buf, len, flags)` (`xs.cpp` is
missing): receives one frame, copies at most `len` of its bytes to `buf`,
records its more flag for the receive-side option and returns its size; -1
when nothing is ready and `XS_DONTWAIT` is given; without `XS_DONTWAIT` the
call then does not return (`none`). The second component is `buf` afterwards. -/
def xs_recv (w : pair_t) (s : handle_t) (buf : List Nat) (len : Nat) (flags : Nat) :
    Option (Int × List Nat × pair_t) :=
  match (w.get s).xreq.xrecv w.pipes with
  | (some m, ps', x') =>
    some (m.data.length, m.data.take len ++ buf.drop (min len m.data.length),
      w.put ps' { xreq := x', rcvmore := m.more } s)
  | (none, ps', x') =>
    if flags &&& XS_DONTWAIT ≠ 0 then some (-1, buf, w.put ps' { w.get s with xreq := x' } s)
    else none

/-- Modelled from the spec: `xs_getsockopt (s, XS_RCVMORE, &rcvmore, &sz)`
(`xs.cpp` is missing): returns 0 and the value of the option. -/
def xs_getsockopt_rcvmore (w : pair_t) (s : handle_t) : Int × Nat :=
  (0, if (w.get s).rcvmore then 1 else 0)

/-- The payload of the bounce test (`testutil.hpp` line 32),
"12345678ABCDEFGH12345678abcdefgh". -/
def content : List Nat :=
  "12345678ABCDEFGH12345678abcdefgh".toList.map Char.toNat

/-- The function `bounce` of `tests/testutil.hpp` (lines 30-74), with the payload
`content` and the initial contents of the two local buffers as parameters. A
failed `assert` ends the run with `none`, as does a call that does not return;
otherwise the result is `buf2` and the sockets at the end. -/
def bounce (content buf1 buf2 : List Nat) (w : pair_t) : Option (List Nat × pair_t) :=
  --  Send the message.
  match xs_send w handle_t.sc content 32 XS_SNDMORE with
  | none => none
  | some (rc, w) =>
  if rc ≠ 32 then none else
  match xs_send w handle_t.sc content 32 0 with
  | none => none
  | some (rc, w) =>
  if rc ≠ 32 then none else
  --  Bounce the message back.
  match xs_recv w handle_t.sb buf1 32 0 with
  | none => none
  | some (rc, buf1, w) =>
  if rc ≠ 32 then none else
  match xs_getsockopt_rcvmore w handle_t.sb with
  | (rc, rcvmore) =>
  if rc ≠ 0 then none else
  if rcvmore = 0 then none else
  match xs_recv w handle_t.sb buf1 32 0 with
  | none => none
  | some (rc, buf1, w) =>
  if rc ≠ 32 then none else
  match xs_getsockopt_rcvmore w handle_t.sb with
  | (rc, rcvmore) =>
  if rc ≠ 0 then none else
  if rcvmore ≠ 0 then none else
  match xs_send w handle_t.sb buf1 32 XS_SNDMORE with
  | none => none
  | some (rc, w) =>
  if rc ≠ 32 then none else
  match xs_send w handle_t.sb buf1 32 0 with
  | none => none
  | some (rc, w) =>
  if rc ≠ 32 then none else
  --  Receive the bounced message.
  match xs_recv w handle_t.sc buf2 32 0 with
  | none => none
  | some (rc, buf2, w) =>
  if rc ≠ 32 then none else
  match xs_getsockopt_rcvmore w handle_t.sc with
  | (rc, rcvmore) =>
  if rc ≠ 0 then none else
  if rcvmore = 0 then none else
  match xs_recv w handle_t.sc buf2 32 0 with
  | none => none
  | some (rc, buf2, w) =>
  if rc ≠ 32 then none else
  match xs_getsockopt_rcvmore w handle_t.sc with
  | (rc, rcvmore) =>
  if rc ≠ 0 then none else
  if rcvmore ≠ 0 then none else
  --  Check whether the message is still the same.
  if buf2.take 32 ≠ content.take 32 then none else
  some (buf2, w)

/-- The states a connected pair goes through while only its two sockets run:
the queue `qb` towards `sb`, the queue `qc` towards `sc`, and the two
receive-side options. `connected_pair hwm` is `pair_state hwm [] [] false false`. -/
def pair_state (hwm : Nat) (qb qc : List msg_t) (mb mc : Bool) : pair_t :=
  { pipes := [{ inq := qb, peer := 1, hwm := hwm }, { inq := qc, peer := 0, hwm := hwm }]
    sb := { xreq := xreq_t.new.xattach_pipe 0, rcvmore := mb }
    sc := { xreq := xreq_t.new.xattach_pipe 1, rcvmore := mc } }

/-- A router with two pipes: pipe 0 holds a two-frame message, pipe 1 a
single-frame message. -/
def sample_pipes : pipes_t :=
  [ { inq := [{ data := [1], more := true }, { data := [2], more := false }],
      peer := 2, hwm := 10 },
    { inq := [{ data := [3], more := false }], peer := 3, hwm := 10 },
    { inq := [], peer := 0, hwm := 10 },
    { inq := [], peer := 1, hwm := 10 } ]

/-- The router attached to pipes 0 and 1 of `sample_pipes`. -/
def sample_xreq : xreq_t := (xreq_t.new.xattach_pipe 0).xattach_pipe 1

end xs

/-! # Theorems on address resolution -/

namespace zmq

/-! ## Helper lemmas -/

theorem strrchr_none (s : CStr) (c : Char) (h : c ∉ s) : strrchr s c = none := by
  induction s with
  | nil => rfl
  | cons x xs ih =>
    have hx : ¬ x = c := fun e => h (by simp [e])
    have hxs : c ∉ xs := fun e => h (List.mem_cons_of_mem _ e)
    simp [strrchr, ih hxs, hx]

theorem strrchr_append (p t : CStr) (c : Char) (h : c ∉ t) :
    strrchr (p ++ c :: t) c = some p.length := by
  induction p with
  | nil => simp [strrchr, strrchr_none t c h]
  | cons x xs ih => simp [strrchr, ih]

theorem to_uint16_lt (x : Int) : to_uint16 x < 65536 := by
  unfold to_uint16
  omega

theorem htons_eq_zero (x : Nat) (h : x < 65536) : htons x = 0 ↔ x = 0 := by
  unfold htons
  omega

theorem htons_lo (x : Nat) (h : x < 65536) : htons x % 256 = x / 256 := by
  unfold htons
  omega

theorem htons_hi (x : Nat) (h : x < 65536) : htons x / 256 % 256 = x % 256 := by
  unfold htons
  have h1 : x / 256 % 256 = x / 256 := Nat.mod_eq_of_lt (by omega)
  rw [h1, Nat.add_comm, Nat.add_mul_div_right _ _ (by norm_num)]
  have h2 : x / 256 / 256 = 0 := by omega
  rw [h2]
  omega

theorem memcpy_memcpy (dst tmp src : Mem) (n : Nat) (h : n ≤ src.length) :
    memcpy dst (memcpy tmp src n) n = memcpy dst src n := by
  have h0 : n - src.length = 0 := by omega
  have hl : (src.take n).length = n := by simp [h]
  have h1 : memcpy tmp src n = src.take n ++ tmp.drop n := by
    simp [memcpy, h0]
  have h2 : (src.take n ++ tmp.drop n).take n = src.take n := by
    rw [List.take_append_of_le_length (by omega)]
    rw [List.take_of_length_le (by omega)]
  have h3 : n - (src.take n ++ tmp.drop n).length = 0 := by
    simp [h]
  rw [h1]
  simp only [memcpy, h2, h3, h0]

theorem ip4_addr_eq (x : Nat) :
    ip4_addr x = [AF_INET, 0, x % 256, x / 256 % 256] ++ List.replicate 12 0 := by
  rfl

theorem ip6_addr_eq (x : Nat) :
    ip6_addr x = [AF_INET6, 0, x % 256, x / 256 % 256] ++ List.replicate 24 0 := by
  rfl

theorem memset_storage (m : Mem) (h : m.length = sizeof_sockaddr_storage) :
    memset m 0 sizeof_sockaddr_storage = List.replicate 128 0 := by
  have : m.drop sizeof_sockaddr_storage = [] := by
    apply List.drop_eq_nil_of_le; omega
  simp [memset, this]
  rfl

/-! ## Inputs covered by the hypotheses below -/

theorem digit_char (d : Nat) (h : d < 10) :
    isdigit (Char.ofNat (48 + d)) = true ∧ (Char.ofNat (48 + d)).toNat - 48 = d
    ∧ isspace (Char.ofNat (48 + d)) = false ∧ Char.ofNat (48 + d) ≠ ':'
    ∧ Char.ofNat (48 + d) ≠ '-' ∧ Char.ofNat (48 + d) ≠ '+' := by
  interval_cases d <;> decide

theorem parse_digits_map (ds : List Nat) (acc : Nat) (h : ∀ d ∈ ds, d < 10) :
    parse_digits acc (ds.map (fun d => Char.ofNat (48 + d)))
      = ds.foldl (fun a d => a * 10 + d) acc := by
  induction ds generalizing acc with
  | nil => rfl
  | cons d ds ih =>
    have hd := digit_char d (h d (by simp))
    simp only [List.map_cons, parse_digits, hd.1, if_true, hd.2.1, List.foldl_cons]
    exact ih _ (fun x hx => h x (List.mem_cons_of_mem _ hx))

theorem foldl_reverse_digits (L : List Nat) :
    L.reverse.foldl (fun a d => a * 10 + d) 0 = Nat.ofDigits 10 L := by
  induction L with
  | nil => rfl
  | cons d ds ih =>
    simp only [List.reverse_cons, List.foldl_append, List.foldl_cons, List.foldl_nil, ih,
      Nat.ofDigits_cons]
    omega

theorem parse_digits_decimal (p : Nat) : parse_digits 0 (decimal p) = p := by
  unfold decimal
  rw [parse_digits_map _ _ (fun d hd => Nat.digits_lt_base (by norm_num)
    (List.mem_reverse.mp hd)), foldl_reverse_digits, Nat.ofDigits_digits]

theorem atoi_of_digit (c : Char) (cs : CStr) (hd : isspace c = false) (h1 : c ≠ '-')
    (h2 : c ≠ '+') : atoi (c :: cs) = to_int (clamp_long (parse_digits 0 (c :: cs))) := by
  unfold atoi
  simp only [List.dropWhile, hd]
  split
  · rename_i r heq
    simp at heq
    exact absurd heq.1 h1
  · rename_i r heq
    simp at heq
    exact absurd heq.1 h2
  · rfl

theorem atoi_decimal (p : Nat) (h1 : 1 ≤ p) (h2 : p < 2147483648) :
    atoi (decimal p) = (p : Int) := by
  have hp := parse_digits_decimal p
  cases hds : decimal p with
  | nil =>
    rw [hds] at hp
    simp [parse_digits] at hp
    omega
  | cons c cs =>
    have hmem : c ∈ decimal p := by rw [hds]; simp
    unfold decimal at hmem
    obtain ⟨d, hd, rfl⟩ := List.mem_map.mp hmem
    have hlt : d < 10 := Nat.digits_lt_base (by norm_num) (List.mem_reverse.mp hd)
    have hc := digit_char d hlt
    rw [atoi_of_digit _ _ hc.2.2.1 hc.2.2.2.2.1 hc.2.2.2.2.2, ← hds, hp]
    unfold clamp_long to_int
    have : ¬ ((p : Int) < -9223372036854775808) := by omega
    have : ¬ (9223372036854775807 < (p : Int)) := by omega
    simp only [*, if_false]
    omega

theorem colon_not_mem_decimal (p : Nat) : ':' ∉ decimal p := by
  unfold decimal
  intro hmem
  obtain ⟨d, hd, he⟩ := List.mem_map.mp hmem
  have hlt : d < 10 := Nat.digits_lt_base (by norm_num) (List.mem_reverse.mp hd)
  exact (digit_char d hlt).2.2.2.1 he

theorem exists_last_colon (s : CStr) (h : ':' ∈ s) :
    ∃ p t : CStr, s = p ++ ':' :: t ∧ ':' ∉ t := by
  induction s with
  | nil => simp at h
  | cons x xs ih =>
    by_cases hx : ':' ∈ xs
    · obtain ⟨p, t, rfl, ht⟩ := ih hx
      exact ⟨x :: p, t, rfl, ht⟩
    · have : x = ':' := by
        cases List.mem_cons.mp h with
        | inl e => exact e.symm
        | inr e => exact absurd e hx
      subst this
      exact ⟨[], xs, rfl, hx⟩

theorem decimal_5555 : decimal 5555 = "5555".toList := by
  simp [decimal]

/-! ## Rejected arguments -/

/-- C1. A string without ':' is rejected by `resolve_ip_interface` and by
`resolve_ip_hostname`, for both values of `ipv4only_`: the return code is -1,
`errno` is `EINVAL`, and nothing else of the state changes; in particular no
call to `resolve_nic_name` or `getaddrinfo` is recorded, whatever the
environment. -/
theorem missing_separator_rejected (env : Env) (st : State) (s : CStr)
    (ipv4only_ : Bool) (h : ':' ∉ s) :
    resolve_ip_interface env st s ipv4only_ = some (-1, { st with errno := EINVAL })
    ∧ resolve_ip_hostname env st s ipv4only_ = some (-1, { st with errno := EINVAL }) := by
  have hd := strrchr_none s ':' h
  constructor
  · simp only [resolve_ip_interface, hd]
  · simp only [resolve_ip_hostname, hd]

set_option maxRecDepth 100000 in
theorem missing_separator_rejected_witness :
    ':' ∉ "eth0".toList
    ∧ resolve_ip_interface sample_env st0 "eth0".toList true
        = some (-1, { st0 with errno := EINVAL })
    ∧ resolve_ip_hostname sample_env st0 "eth0".toList true
        = some (-1, { st0 with errno := EINVAL }) :=
  ⟨by decide, missing_separator_rejected sample_env st0 "eth0".toList true (by decide)⟩

/-- C2. Port 0 is rejected by `resolve_ip_interface`: when the text after the last
':' converts to the 16-bit port 0, the return code is -1 and `errno` is
`EINVAL`, for every interface part (the wildcard included) and both values of
`ipv4only_`. -/
theorem zero_port_rejected (env : Env) (st : State) (iface service : CStr)
    (ipv4only_ : Bool) (hs : ':' ∉ service) (hp : to_uint16 (atoi service) = 0) :
    resolve_ip_interface env st (iface ++ ':' :: service) ipv4only_
      = some (-1, { st with errno := EINVAL }) := by
  have hd := strrchr_append iface service ':' hs
  simp [resolve_ip_interface, hd, hp, htons]

set_option maxRecDepth 100000 in
theorem zero_port_rejected_witness :
    ':' ∉ "0".toList ∧ to_uint16 (atoi "0".toList) = 0
    ∧ resolve_ip_interface sample_env st0 ("*".toList ++ ':' :: "0".toList) false
        = some (-1, { st0 with errno := EINVAL }) :=
  ⟨by decide, by decide,
    zero_port_rejected sample_env st0 "*".toList "0".toList false (by decide) (by decide)⟩

/-! ## Wildcard resolution -/

/-- C4. For the input `*:<port>` whose port text converts to `p` with
`1 ≤ p ≤ 65535`, `resolve_ip_interface` returns 0; the output storage holds the
family (`AF_INET` when `ipv4only_`, else `AF_INET6`), then the port in network
byte order, and zero in every other byte (the wildcard address); the output
length is the size of `sockaddr_in` resp. `sockaddr_in6`; `errno` and the trace
of calls are untouched, so neither service was consulted. -/
theorem wildcard_resolution (env : Env) (st : State) (service : CStr) (p : Nat)
    (ipv4only_ : Bool) (hlen : st.addr.length = sizeof_sockaddr_storage)
    (hs : ':' ∉ service) (hp : atoi service = (p : Int)) (h1 : 1 ≤ p)
    (h2 : p ≤ 65535) :
    resolve_ip_interface env st ('*' :: ':' :: service) ipv4only_
      = some (0, { st with
          addr := [if ipv4only_ then AF_INET else AF_INET6, 0, p / 256, p % 256]
                    ++ List.replicate 124 0
          addr_len := if ipv4only_ then sizeof_sockaddr_in
                      else sizeof_sockaddr_in6 }) := by
  have hd : strrchr ('*' :: ':' :: service) ':' = some 1 :=
    strrchr_append ['*'] service ':' hs
  have hport : to_uint16 (atoi service) = p := by
    rw [hp]; unfold to_uint16; omega
  have hp16 : p < 65536 := by omega
  have hnz : ¬ htons p = 0 := by
    rw [htons_eq_zero p hp16]; omega
  have hz := memset_storage st.addr hlen
  cases ipv4only_ with
  | true =>
    have hm := memcpy_memcpy (List.replicate 128 0) env.ss (ip4_addr (htons p))
      sizeof_sockaddr_in (by rw [ip4_addr_eq]; simp [sizeof_sockaddr_in])
    simp only [resolve_ip_interface, hd, hport, hnz, hz, if_true, if_false,
      List.take, List.drop, hm]
    simp [ip4_addr_eq, htons_lo p hp16, htons_hi p hp16, memcpy, sizeof_sockaddr_in,
      sizeof_sockaddr_storage, List.replicate]
  | false =>
    have hm := memcpy_memcpy (List.replicate 128 0) env.ss (ip6_addr (htons p))
      sizeof_sockaddr_in6 (by rw [ip6_addr_eq]; simp [sizeof_sockaddr_in6])
    simp only [resolve_ip_interface, hd, hport, hnz, hz, if_true, if_false,
      List.take, List.drop, hm]
    simp [ip6_addr_eq, htons_lo p hp16, htons_hi p hp16, memcpy, sizeof_sockaddr_in6,
      sizeof_sockaddr_storage, List.replicate]

set_option maxRecDepth 100000 in
theorem wildcard_resolution_witness :
    st0.addr.length = sizeof_sockaddr_storage ∧ ':' ∉ "5555".toList
    ∧ atoi "5555".toList = ((5555 : Nat) : Int)
    ∧ resolve_ip_interface sample_env st0 ('*' :: ':' :: "5555".toList) false
      = some (0, { st0 with
          addr := [if false then AF_INET else AF_INET6, 0, 5555 / 256, 5555 % 256]
                    ++ List.replicate 124 0
          addr_len := if false then sizeof_sockaddr_in
                      else sizeof_sockaddr_in6 }) :=
  ⟨by decide, by decide, by decide,
    wildcard_resolution sample_env st0 "5555".toList 5555 false (by decide)
      (by decide) (by decide) (by decide) (by decide)⟩

/-! ## Local paths -/

theorem resolve_local_path_ok (st : State) (path_ : CStr)
    (hlen : st.addr.length = sizeof_sockaddr_storage)
    (h : path_.length < sizeof_sun_path) :
    resolve_local_path st path_
      = some (0, { st with
          addr := [AF_UNIX, 0] ++ cstr_bytes path_ ++ [0]
                    ++ st.addr.drop (path_.length + 3)
          addr_len := sizeof_sockaddr_un }) := by
  have h' : ¬ path_.length ≥ sizeof_sun_path := by omega
  have h2 : (st.addr.take 2).length = 2 := by
    rw [List.length_take, hlen]; decide
  have hb : (cstr_bytes path_).length = path_.length := by simp [cstr_bytes]
  have hd : List.drop 2 (List.take 2 st.addr ++ (cstr_bytes path_ ++ [0])
      ++ List.drop (2 + (cstr_bytes path_ ++ [0]).length) st.addr)
      = cstr_bytes path_ ++ [0] ++ List.drop (path_.length + 3) st.addr := by
    rw [List.append_assoc, List.drop_append_of_le_length (by omega)]
    rw [List.drop_of_length_le (by omega)]
    simp [hb]
    congr 1
    omega
  simp only [resolve_local_path, h', if_false, strcpy, store16, write_at,
    List.take_zero, List.nil_append, List.length_cons, List.length_nil, hd]
  simp [AF_UNIX]

/-- C5. On a POSIX build `resolve_local_path` fails with -1 and `ENAMETOOLONG`
exactly when the path is at least as long as `sun_path`; a longer path changes
nothing but `errno`; a shorter path gives 0, the family `AF_UNIX` in the first
two bytes, the path followed by NUL from offset 2, the bytes after it
untouched, and the length `sizeof (sockaddr_un)`. -/
theorem resolve_local_path_spec (st : State) (path_ : CStr)
    (hlen : st.addr.length = sizeof_sockaddr_storage) :
    ((∃ st', resolve_local_path st path_ = some (-1, st') ∧ st'.errno = ENAMETOOLONG)
        ↔ sizeof_sun_path ≤ path_.length)
    ∧ (sizeof_sun_path ≤ path_.length →
        resolve_local_path st path_ = some (-1, { st with errno := ENAMETOOLONG }))
    ∧ (path_.length < sizeof_sun_path →
        resolve_local_path st path_
          = some (0, { st with
              addr := [AF_UNIX, 0] ++ cstr_bytes path_ ++ [0]
                        ++ st.addr.drop (path_.length + 3)
              addr_len := sizeof_sockaddr_un })) := by
  have hlong : sizeof_sun_path ≤ path_.length →
      resolve_local_path st path_ = some (-1, { st with errno := ENAMETOOLONG }) := by
    intro h
    have h' : path_.length ≥ sizeof_sun_path := h
    simp only [resolve_local_path, h', if_true]
  refine ⟨⟨?_, ?_⟩, hlong, resolve_local_path_ok st path_ hlen⟩
  · rintro ⟨st', he, _⟩
    by_contra hc
    rw [resolve_local_path_ok st path_ hlen (by omega)] at he
    simp at he
  · intro h
    exact ⟨_, hlong h, rfl⟩

set_option maxRecDepth 100000 in
theorem resolve_local_path_spec_witness :
    st0.addr.length = sizeof_sockaddr_storage
    ∧ resolve_local_path st0 "/tmp/sock".toList
        = some (0, { st0 with
            addr := [1, 0, 47, 116, 109, 112, 47, 115, 111, 99, 107, 0]
                      ++ List.replicate 116 255
            addr_len := 110 })
    ∧ resolve_local_path st0 (List.replicate 108 'a')
        = some (-1, { st0 with errno := ENAMETOOLONG }) :=
  ⟨by decide,
    ((resolve_local_path_spec st0 "/tmp/sock".toList (by decide)).2.2
      (by decide)).trans (by decide),
    (resolve_local_path_spec st0 (List.replicate 108 'a') (by decide)).2.1
      (by decide)⟩

/-! ## Nothing is written on an invalid argument -/

/-- C6. When `resolve_ip_interface` fails for a missing ':' or a zero port, when
`resolve_ip_hostname` fails for a missing ':', and when `resolve_local_path`
fails for a path that does not fit, the output storage and the output length
are what they were before the call. -/
theorem invalid_argument_leaves_output (env : Env) (st : State) (ipv4only_ : Bool) :
    (∀ s : CStr, ':' ∉ s →
      ∃ st', resolve_ip_interface env st s ipv4only_ = some (-1, st')
        ∧ st'.addr = st.addr ∧ st'.addr_len = st.addr_len)
    ∧ (∀ iface service : CStr, ':' ∉ service → to_uint16 (atoi service) = 0 →
      ∃ st', resolve_ip_interface env st (iface ++ ':' :: service) ipv4only_
          = some (-1, st')
        ∧ st'.addr = st.addr ∧ st'.addr_len = st.addr_len)
    ∧ (∀ s : CStr, ':' ∉ s →
      ∃ st', resolve_ip_hostname env st s ipv4only_ = some (-1, st')
        ∧ st'.addr = st.addr ∧ st'.addr_len = st.addr_len)
    ∧ (∀ path_ : CStr, sizeof_sun_path ≤ path_.length →
      ∃ st', resolve_local_path st path_ = some (-1, st')
        ∧ st'.addr = st.addr ∧ st'.addr_len = st.addr_len) := by
  refine ⟨?_, ?_, ?_, ?_⟩
  · intro s h
    refine ⟨{ st with errno := EINVAL }, ?_, rfl, rfl⟩
    simp only [resolve_ip_interface, strrchr_none s ':' h]
  · intro iface service hs hp
    refine ⟨{ st with errno := EINVAL }, ?_, rfl, rfl⟩
    simp [resolve_ip_interface, strrchr_append iface service ':' hs, hp, htons]
  · intro s h
    refine ⟨{ st with errno := EINVAL }, ?_, rfl, rfl⟩
    simp only [resolve_ip_hostname, strrchr_none s ':' h]
  · intro path_ h
    refine ⟨{ st with errno := ENAMETOOLONG }, ?_, rfl, rfl⟩
    have h' : path_.length ≥ sizeof_sun_path := h
    simp only [resolve_local_path, h', if_true]

set_option maxRecDepth 100000 in
theorem invalid_argument_leaves_output_witness :
    (∃ st', resolve_ip_interface sample_env st0 "eth0".toList true = some (-1, st')
        ∧ st'.addr = st0.addr ∧ st'.addr_len = st0.addr_len)
    ∧ (∃ st', resolve_ip_interface sample_env st0 ("eth0".toList ++ ':' :: "0".toList)
          true = some (-1, st')
        ∧ st'.addr = st0.addr ∧ st'.addr_len = st0.addr_len)
    ∧ (∃ st', resolve_ip_hostname sample_env st0 "localhost".toList true
          = some (-1, st')
        ∧ st'.addr = st0.addr ∧ st'.addr_len = st0.addr_len)
    ∧ (∃ st', resolve_local_path st0 (List.replicate 200 'x') = some (-1, st')
        ∧ st'.addr = st0.addr ∧ st'.addr_len = st0.addr_len) :=
  ⟨(invalid_argument_leaves_output sample_env st0 true).1 "eth0".toList (by decide),
   (invalid_argument_leaves_output sample_env st0 true).2.1 "eth0".toList "0".toList
      (by decide) (by decide),
   (invalid_argument_leaves_output sample_env st0 true).2.2.1 "localhost".toList
      (by decide),
   (invalid_argument_leaves_output sample_env st0 true).2.2.2 (List.replicate 200 'x')
      (by decide)⟩

/-! ## Interface names and literal addresses -/

/-- C7. Take an input with a ':' separator, a non-zero port and an interface
part other than `*`, for which `resolve_nic_name` fails (non-zero `rc`) leaving
`errno = e`. If `e` is `ENODEV`, as always with the fallback
`resolve_nic_name`, the outcome of `resolve_ip_interface` is that of
`getaddrinfo` on the interface part and the port text, asked for numeric host
and numeric service in the family chosen by `ipv4only_`: when it fails the
result is -1 with `errno = ENODEV`, when it succeeds the result is 0 with the
first entry's address and length copied to the (zeroed) output. If `e` is not
`ENODEV`, `rc` is returned at once and `getaddrinfo` is not called. -/
theorem nic_fall_through (env : Env) (st : State) (iface service : CStr)
    (ipv4only_ : Bool) (rc : Int) (e : Nat)
    (hlen : st.addr.length = sizeof_sockaddr_storage)
    (hs : ':' ∉ service) (hp : to_uint16 (atoi service) ≠ 0)
    (hstar : iface ≠ ['*'])
    (hnic : ∀ buf, ∃ r, env.resolve_nic_name buf iface ipv4only_ st.errno = some r
      ∧ r.rc = rc ∧ r.errno = e)
    (hrc : rc ≠ 0) :
    (e = ENODEV →
      ((env.getaddrinfo iface service (interface_req ipv4only_) ENODEV).rc ≠ 0 →
        resolve_ip_interface env st (iface ++ ':' :: service) ipv4only_
          = some (-1, { addr := List.replicate 128 0, addr_len := st.addr_len,
                        errno := ENODEV,
                        calls := st.calls ++ [Call.nic_lookup iface ipv4only_,
                          Call.addr_lookup iface service (interface_req ipv4only_)] }))
      ∧ (∀ (res : addrinfo_res) (rest : List addrinfo_res),
        (env.getaddrinfo iface service (interface_req ipv4only_) ENODEV).rc = 0 →
        (env.getaddrinfo iface service (interface_req ipv4only_) ENODEV).res
          = res :: rest →
        res.ai_addrlen ≤ sizeof_sockaddr_storage →
        resolve_ip_interface env st (iface ++ ':' :: service) ipv4only_
          = some (0, { addr := memcpy (List.replicate 128 0) res.ai_addr res.ai_addrlen,
                       addr_len := res.ai_addrlen,
                       errno := (env.getaddrinfo iface service
                                  (interface_req ipv4only_) ENODEV).errno,
                       calls := st.calls ++ [Call.nic_lookup iface ipv4only_,
                         Call.addr_lookup iface service (interface_req ipv4only_)] })))
    ∧ (e ≠ ENODEV →
        resolve_ip_interface env st (iface ++ ':' :: service) ipv4only_
          = some (rc, { addr := List.replicate 128 0, addr_len := st.addr_len,
                        errno := e,
                        calls := st.calls ++ [Call.nic_lookup iface ipv4only_] }))
    ∧ (interface_req ipv4only_).ai_family = (if ipv4only_ then AF_INET else AF_INET6)
    ∧ (interface_req ipv4only_).ai_flags &&& AI_NUMERICHOST = AI_NUMERICHOST
    ∧ (interface_req ipv4only_).ai_flags &&& AI_NUMERICSERV = AI_NUMERICSERV
    ∧ (∀ buf name flag err, ∃ r, resolve_nic_name_fallback buf name flag err = some r
        ∧ r.rc ≠ 0 ∧ r.errno = ENODEV) := by
  have hd := strrchr_append iface service ':' hs
  have hnz : ¬ htons (to_uint16 (atoi service)) = 0 := by
    rw [htons_eq_zero _ (to_uint16_lt _)]; exact hp
  have hz := memset_storage st.addr hlen
  have hle : (if ipv4only_ = true then sizeof_sockaddr_in else sizeof_sockaddr_in6)
      ≤ sizeof_sockaddr_storage := by
    cases ipv4only_ <;> decide
  have htake : List.take iface.length (iface ++ ':' :: service) = iface := by simp
  have hdrop : List.drop (iface.length + 1) (iface ++ ':' :: service) = service := by
    simp
  obtain ⟨r, hr, hr1, hr2⟩ := hnic
    (if ipv4only_ = true then
      memcpy env.ss (ip4_addr (htons (to_uint16 (atoi service))))
        (if ipv4only_ = true then sizeof_sockaddr_in else sizeof_sockaddr_in6)
    else
      memcpy env.ss (ip6_addr (htons (to_uint16 (atoi service))))
        (if ipv4only_ = true then sizeof_sockaddr_in else sizeof_sockaddr_in6))
  subst hr1
  subst hr2
  refine ⟨?_, ?_, ?_, ?_, ?_, ?_⟩
  · intro he
    refine ⟨?_, ?_⟩
    · intro hg
      simp only [resolve_ip_interface, hd, htake, hdrop, hnz, hz, hstar, if_false, hr]
      rw [he]
      simp [hrc, hg]
    · intro res rest hg hres hlen'
      simp only [resolve_ip_interface, hd, htake, hdrop, hnz, hz, hstar, if_false, hr]
      rw [he]
      simp [hrc, hg, hres, hlen']
  · intro he
    simp only [resolve_ip_interface, hd, htake, hdrop, hnz, hz, hstar, if_false, hr]
    simp [he, hrc]
  · cases ipv4only_ <;> rfl
  · cases ipv4only_ <;> decide
  · cases ipv4only_ <;> decide
  · intro buf name flag err
    exact ⟨_, rfl, by simp, rfl⟩

set_option maxRecDepth 100000 in
theorem nic_fall_through_witness :
    resolve_ip_interface sample_env st0 ("127.0.0.1".toList ++ ':' :: "5555".toList) true
      = some (0, { addr := memcpy (List.replicate 128 0)
                      (sockaddr_in_bytes 5555 127 0 0 1) sizeof_sockaddr_in,
                   addr_len := sizeof_sockaddr_in,
                   errno := ENODEV,
                   calls := st0.calls ++ [Call.nic_lookup "127.0.0.1".toList true,
                     Call.addr_lookup "127.0.0.1".toList "5555".toList
                       (interface_req true)] }) :=
  ((nic_fall_through sample_env st0 "127.0.0.1".toList "5555".toList true (-1) ENODEV
      (by decide) (by decide) (by decide) (by decide)
      (fun buf => ⟨_, rfl, rfl, rfl⟩) (by decide)).1 rfl).2
    { ai_addrlen := sizeof_sockaddr_in, ai_addr := sockaddr_in_bytes 5555 127 0 0 1 } []
    (by decide) (by decide) (by decide)

/-! ## Evaluations -/

set_option maxRecDepth 100000 in
/-- C3. On `localhost:0` the function `resolve_ip_hostname` hands the service `0` to
`getaddrinfo` without looking at the port; with a resolver that accepts it,
as the system's does, the call succeeds (0) and delivers the address
127.0.0.1 with port 0 instead of failing with `EINVAL`. The sibling
`resolve_ip_interface` rejects port 0 in the same environment. -/
theorem hostname_port_zero_accepted :
    resolve_ip_hostname sample_env st0 "localhost:0".toList true
      = some (0, { addr := [2, 0, 0, 0, 127, 0, 0, 1, 0, 0, 0, 0, 0, 0, 0, 0]
                            ++ List.replicate 112 255,
                   addr_len := 16,
                   errno := 0,
                   calls := [Call.addr_lookup "localhost".toList "0".toList
                              (hostname_req true)] })
    ∧ resolve_ip_interface sample_env st0 "127.0.0.1:0".toList true
      = some (-1, { st0 with errno := EINVAL }) := by
  decide

set_option maxRecDepth 100000 in
/-- C10. On `eth0:5555`, with `eth0` found by the `getifaddrs` variant of
`resolve_nic_name`, the function `resolve_ip_interface` returns 0 but the output
is the interface's own `sockaddr_in` as `getifaddrs` gave it, port field 0: the
port 5555 written before the lookup is overwritten by the `memcpy` of the whole
structure. On the wildcard path the same port is kept. -/
theorem nic_path_loses_port :
    resolve_ip_interface ifaddrs_env st0 "eth0:5555".toList true
      = some (0, { addr := [2, 0, 0, 0, 192, 168, 1, 2] ++ List.replicate 120 0,
                   addr_len := 16,
                   errno := 0,
                   calls := [Call.nic_lookup "eth0".toList true] })
    ∧ resolve_ip_interface ifaddrs_env st0 "*:5555".toList true
      = some (0, { addr := [2, 0, 21, 179, 0, 0, 0, 0] ++ List.replicate 120 0,
                   addr_len := 16,
                   errno := 0,
                   calls := [] }) := by
  decide

end zmq

/-! # Theorems on the request router -/

namespace xs

/-! ## Helper lemmas -/

theorem queued_set (ps : pipes_t) (h : Nat) (p q : pipe_t) (hp : ps[h]? = some p) :
    queued (ps.set h q) + p.inq.length = queued ps + q.inq.length := by
  induction ps generalizing h with
  | nil => simp at hp
  | cons a as ih =>
    cases h with
    | zero =>
      simp at hp
      subst hp
      simp [queued]
      omega
    | succ k =>
      simp at hp
      have := ih k hp
      simp [queued] at this ⊢
      omega

theorem pipe_read_queued (ps ps' : pipes_t) (h : Nat) (m : msg_t)
    (hr : pipe_read ps h = some (m, ps')) : queued ps' + 1 = queued ps := by
  unfold pipe_read at hr
  cases hp : ps[h]? with
  | none => simp [hp] at hr
  | some p =>
    simp only [hp] at hr
    cases hq : p.inq with
    | nil => simp [hq] at hr
    | cons m' rest =>
      simp only [hq, Option.some.injEq, Prod.mk.injEq] at hr
      obtain ⟨_, rfl⟩ := hr
      have := queued_set ps h p { p with inq := rest } hp
      simp [hq] at this
      omega

theorem fq_recv_queued (ps ps' : pipes_t) (fq fq' : fq_t) (m : msg_t)
    (hr : fq.recv ps = some (m, ps', fq')) : queued ps' + 1 = queued ps := by
  unfold fq_t.recv at hr
  cases hs : scan (check_read ps) fq.pipes fq.current with
  | none => simp [hs] at hr
  | some pos =>
    simp only [hs] at hr
    cases hp : pipe_read ps (fq.pipes.getD pos 0) with
    | none => rw [hp] at hr; cases hr
    | some r =>
      obtain ⟨m', ps''⟩ := r
      simp only [hp, Option.some.injEq, Prod.mk.injEq] at hr
      obtain ⟨rfl, rfl, _⟩ := hr
      exact pipe_read_queued ps ps'' _ m' hp

theorem fq_drain_none (ps : pipes_t) (fq : fq_t) (h : fq.recv ps = none) :
    fq_drain (queued ps) ps fq = [] := by
  cases hq : queued ps with
  | zero => rfl
  | succ n => simp [fq_drain, h]

theorem fq_drain_some (ps ps' : pipes_t) (fq fq' : fq_t) (m : msg_t)
    (h : fq.recv ps = some (m, ps', fq')) :
    fq_drain (queued ps) ps fq = m :: fq_drain (queued ps') ps' fq' := by
  have hq := fq_recv_queued ps ps' fq fq' m h
  rw [← hq]
  simp [fq_drain, h]

theorem pending_xhas_in (ps : pipes_t) (x : xreq_t) :
    pending (x.xhas_in ps).2.1 (x.xhas_in ps).2.2 = pending ps x := by
  unfold xreq_t.xhas_in
  cases hp : x.prefetched with
  | true => simp
  | false =>
    cases hr : x.fq.recv ps with
    | none => simp
    | some r =>
      obtain ⟨m, ps', fq'⟩ := r
      simp [pending, hp, fq_drain_some ps ps' x.fq fq' m hr]

theorem pending_xrecv (ps : pipes_t) (x : xreq_t) :
    (x.xrecv ps).1.toList ++ pending (x.xrecv ps).2.1 (x.xrecv ps).2.2 = pending ps x := by
  unfold xreq_t.xrecv
  cases hp : x.prefetched with
  | true => simp [pending, hp]
  | false =>
    cases hr : x.fq.recv ps with
    | none => simp
    | some r =>
      obtain ⟨m, ps', fq'⟩ := r
      simp [pending, hp, fq_drain_some ps ps' x.fq fq' m hr]

theorem run_calls_pending (cs : List call_t) (ps : pipes_t) (x : xreq_t) :
    (run_calls cs ps x).1 ++ pending (run_calls cs ps x).2.1 (run_calls cs ps x).2.2
      = pending ps x := by
  induction cs generalizing ps x with
  | nil => simp [run_calls]
  | cons c cs ih =>
    cases c with
    | has_in =>
      have h := pending_xhas_in ps x
      simp only [run_calls]
      rw [ih, h]
    | recv =>
      have h := pending_xrecv ps x
      simp only [run_calls]
      rcases hx : x.xrecv ps with ⟨o, ps', x'⟩
      rw [hx] at h
      cases o with
      | none =>
        simp only [Option.toList, List.nil_append] at h
        simp only [ih, h]
      | some m =>
        simp only [Option.toList, List.singleton_append] at h
        simp only [List.cons_append, ih, h]

/-! ## No double consumption -/

/-- C8. When `xhas_in` returns true the prefetch slot is filled; if it was empty
before, the message in it is the one `xhas_in` took from the fair queue; the
`xrecv` that follows succeeds, returns exactly that message, clears the slot
and leaves the pipes and the fair queue as they are. Over any sequence of
`xhas_in` and `xrecv` calls the messages delivered, followed by what is still
pending at the end, are what was pending at the start: the fair queue's
messages in order, none twice and none skipped. -/
theorem no_double_consumption :
    (∀ (ps ps' : pipes_t) (x x' : xreq_t), x.xhas_in ps = (true, ps', x') →
      x'.prefetched = true
      ∧ (x.prefetched = false → x.fq.recv ps = some (x'.prefetched_msg, ps', x'.fq))
      ∧ (x.prefetched = true → ps' = ps ∧ x' = x)
      ∧ x'.xrecv ps' = (some x'.prefetched_msg, ps',
          { x' with prefetched := false, prefetched_msg := msg_t.init }))
    ∧ (∀ (cs : List call_t) (ps : pipes_t) (x : xreq_t),
      (run_calls cs ps x).1 ++ pending (run_calls cs ps x).2.1 (run_calls cs ps x).2.2
        = pending ps x) := by
  refine ⟨?_, run_calls_pending⟩
  intro ps ps' x x' h
  unfold xreq_t.xhas_in at h
  cases hp : x.prefetched with
  | true =>
    simp only [hp, if_true, Prod.mk.injEq, true_and] at h
    obtain ⟨rfl, rfl⟩ := h
    refine ⟨hp, by simp, fun _ => ⟨rfl, rfl⟩, ?_⟩
    simp [xreq_t.xrecv, hp]
  | false =>
    cases hr : x.fq.recv ps with
    | none => simp [hp, hr] at h
    | some r =>
      obtain ⟨m, ps'', fq'⟩ := r
      simp only [hp, hr, Prod.mk.injEq, true_and] at h
      simp only [Bool.false_eq_true, if_false, Prod.mk.injEq, true_and] at h
      obtain ⟨rfl, rfl⟩ := h
      refine ⟨rfl, fun _ => rfl, by simp, ?_⟩
      simp [xreq_t.xrecv]

theorem no_double_consumption_witness :
    sample_xreq.xhas_in sample_pipes
      = (true, (sample_xreq.xhas_in sample_pipes).2.1,
          (sample_xreq.xhas_in sample_pipes).2.2)
    ∧ (sample_xreq.xhas_in sample_pipes).2.2.xrecv (sample_xreq.xhas_in sample_pipes).2.1
      = (some { data := [1], more := true }, (sample_xreq.xhas_in sample_pipes).2.1,
          { (sample_xreq.xhas_in sample_pipes).2.2 with
              prefetched := false, prefetched_msg := msg_t.init })
    ∧ (run_calls [call_t.has_in, call_t.recv, call_t.has_in, call_t.has_in, call_t.recv,
          call_t.recv, call_t.recv] sample_pipes sample_xreq).1
      = [{ data := [1], more := true }, { data := [2], more := false },
          { data := [3], more := false }] :=
  ⟨by decide,
    ((no_double_consumption.1 sample_pipes _ sample_xreq _
      (by decide : sample_xreq.xhas_in sample_pipes
        = (true, (sample_xreq.xhas_in sample_pipes).2.1,
            (sample_xreq.xhas_in sample_pipes).2.2))).2.2.2).trans (by decide),
    by decide⟩

/-! ## The bounce round trip -/

theorem xs_send_sc (hwm : Nat) (qb qc : List msg_t) (mb mc : Bool) (buf : List Nat)
    (len fl : Nat) (h : qb.length < hwm) :
    xs_send (pair_state hwm qb qc mb mc) handle_t.sc buf len fl
      = some ((len : Int), pair_state hwm
          (qb ++ [{ data := buf.take len, more := fl &&& XS_SNDMORE ≠ 0 }]) qc mb mc) := by
  simp [xs_send, pair_state, pair_t.get, pair_t.put, xreq_t.xsend, lb_t.send, scan,
    check_write, pipe_write, xreq_t.new, xreq_t.xattach_pipe, lb_t.attach, fq_t.attach, h,
    List.range_succ]

theorem xs_send_sb (hwm : Nat) (qb qc : List msg_t) (mb mc : Bool) (buf : List Nat)
    (len fl : Nat) (h : qc.length < hwm) :
    xs_send (pair_state hwm qb qc mb mc) handle_t.sb buf len fl
      = some ((len : Int), pair_state hwm qb
          (qc ++ [{ data := buf.take len, more := fl &&& XS_SNDMORE ≠ 0 }]) mb mc) := by
  simp [xs_send, pair_state, pair_t.get, pair_t.put, xreq_t.xsend, lb_t.send, scan,
    check_write, pipe_write, xreq_t.new, xreq_t.xattach_pipe, lb_t.attach, fq_t.attach, h,
    List.range_succ]

theorem xs_recv_sb (hwm : Nat) (m : msg_t) (qb qc : List msg_t) (mb mc : Bool)
    (buf : List Nat) (len fl : Nat) :
    xs_recv (pair_state hwm (m :: qb) qc mb mc) handle_t.sb buf len fl
      = some ((m.data.length : Int),
          m.data.take len ++ buf.drop (min len m.data.length),
          pair_state hwm qb qc m.more mc) := by
  simp [xs_recv, pair_state, pair_t.get, pair_t.put, xreq_t.xrecv, fq_t.recv, scan,
    check_read, pipe_read, xreq_t.new, xreq_t.xattach_pipe, lb_t.attach, fq_t.attach,
    List.range_succ]

theorem xs_recv_sc (hwm : Nat) (m : msg_t) (qb qc : List msg_t) (mb mc : Bool)
    (buf : List Nat) (len fl : Nat) :
    xs_recv (pair_state hwm qb (m :: qc) mb mc) handle_t.sc buf len fl
      = some ((m.data.length : Int),
          m.data.take len ++ buf.drop (min len m.data.length),
          pair_state hwm qb qc mb m.more) := by
  simp [xs_recv, pair_state, pair_t.get, pair_t.put, xreq_t.xrecv, fq_t.recv, scan,
    check_read, pipe_read, xreq_t.new, xreq_t.xattach_pipe, lb_t.attach, fq_t.attach,
    List.range_succ]

theorem connected_pair_eq (hwm : Nat) :
    connected_pair hwm = pair_state hwm [] [] false false := rfl

theorem xs_getsockopt_rcvmore_sb (hwm : Nat) (qb qc : List msg_t) (mb mc : Bool) :
    xs_getsockopt_rcvmore (pair_state hwm qb qc mb mc) handle_t.sb
      = (0, if mb then 1 else 0) := rfl

theorem xs_getsockopt_rcvmore_sc (hwm : Nat) (qb qc : List msg_t) (mb mc : Bool) :
    xs_getsockopt_rcvmore (pair_state hwm qb qc mb mc) handle_t.sc
      = (0, if mc then 1 else 0) := rfl

theorem bounce_passes (hwm : Nat) (c buf1 buf2 : List Nat) (hh : 2 ≤ hwm)
    (hc : 32 ≤ c.length) :
    bounce c buf1 buf2 (connected_pair hwm)
      = some (c.take 32 ++ buf2.drop 32, connected_pair hwm) := by
  have hd : (c.take 32).length = 32 := by simp [hc]
  have ht : ∀ b : List Nat, (c.take 32 ++ b).take 32 = c.take 32 := by
    intro b
    rw [List.take_append_of_le_length (by omega), List.take_of_length_le (by omega)]
  have hdrop : ∀ b : List Nat, (c.take 32 ++ b).drop 32 = b := by
    intro b
    rw [List.drop_append_of_le_length (by omega), List.drop_of_length_le (by omega)]
    rfl
  have hmore : (XS_SNDMORE &&& XS_SNDMORE ≠ 0) = True := by decide
  have hnomore : (0 &&& XS_SNDMORE ≠ 0) = False := by decide
  unfold bounce
  rw [connected_pair_eq]
  rw [xs_send_sc _ _ _ _ _ _ _ _ (by simp; omega)]
  simp only [Nat.cast_ofNat, ne_eq, not_true_eq_false, if_false]
  rw [xs_send_sc _ _ _ _ _ _ _ _ (by simp; omega)]
  simp only [Nat.cast_ofNat, ne_eq, not_true_eq_false, if_false, List.nil_append,
    List.cons_append]
  rw [xs_recv_sb]
  simp only [hd, Nat.cast_ofNat, ne_eq, not_true_eq_false, if_false,
    xs_getsockopt_rcvmore_sb, hmore, decide_True, if_true, OfNat.ofNat_ne_zero,
    one_ne_zero]
  rw [xs_recv_sb]
  simp only [hd, Nat.cast_ofNat, ne_eq, not_true_eq_false, if_false,
    xs_getsockopt_rcvmore_sb, hnomore, decide_False, if_true, Bool.false_eq_true]
  rw [xs_send_sb _ _ _ _ _ _ _ _ (by simp; omega)]
  simp only [Nat.cast_ofNat, ne_eq, not_true_eq_false, if_false]
  rw [xs_send_sb _ _ _ _ _ _ _ _ (by simp; omega)]
  simp only [Nat.cast_ofNat, ne_eq, not_true_eq_false, if_false, List.nil_append,
    List.cons_append, List.take_take, min_self, ht]
  rw [xs_recv_sc]
  simp only [hd, Nat.cast_ofNat, ne_eq, not_true_eq_false, if_false,
    xs_getsockopt_rcvmore_sc, hmore, decide_True, if_true, OfNat.ofNat_ne_zero,
    one_ne_zero]
  rw [xs_recv_sc]
  simp only [hd, Nat.cast_ofNat, ne_eq, not_true_eq_false, if_false,
    xs_getsockopt_rcvmore_sc, hnomore, decide_False, if_true, Bool.false_eq_true,
    List.take_take, min_self, ht, hdrop]

theorem recv_buffer (f buf : List Nat) (n : Nat) (h : f.length ≤ n) :
    f.take n ++ buf.drop (min n f.length) = f ++ buf.drop f.length := by
  rw [List.take_of_length_le h, Nat.min_eq_right h]

theorem resend_frame (f b : List Nat) : (f ++ b).take f.length = f := by
  simp

/-- C9. On a connected socket pair whose pipes hold at least two frames, a
two-frame message `f1`, `f2` sent on `sc` (the first frame with `XS_SNDMORE`)
is received on `sb` frame by frame, each with its full length, the receive-side
more option being set after the first frame and clear after the second; the
received frames sent back the same way arrive on `sc` with the same more
indicators and the same bytes. The test `bounce`, run with any payload of 32
bytes for both frames, passes all its assertions and ends with the payload in
`buf2`. -/
theorem bounce_round_trip (hwm n : Nat) (f1 f2 buf1 buf2 : List Nat) (hh : 2 ≤ hwm)
    (h1 : f1.length ≤ n) (h2 : f2.length ≤ n) :
    (∃ w1 w2 w3 w4 w5 w6 w7 : pair_t,
      xs_send (connected_pair hwm) handle_t.sc f1 f1.length XS_SNDMORE
        = some ((f1.length : Int), w1)
      ∧ xs_send w1 handle_t.sc f2 f2.length 0 = some ((f2.length : Int), w2)
      ∧ xs_recv w2 handle_t.sb buf1 n 0
        = some ((f1.length : Int), f1 ++ buf1.drop f1.length, w3)
      ∧ xs_getsockopt_rcvmore w3 handle_t.sb = (0, 1)
      ∧ xs_recv w3 handle_t.sb buf2 n 0
        = some ((f2.length : Int), f2 ++ buf2.drop f2.length, w4)
      ∧ xs_getsockopt_rcvmore w4 handle_t.sb = (0, 0)
      ∧ xs_send w4 handle_t.sb (f1 ++ buf1.drop f1.length) f1.length XS_SNDMORE
        = some ((f1.length : Int), w5)
      ∧ xs_send w5 handle_t.sb (f2 ++ buf2.drop f2.length) f2.length 0
        = some ((f2.length : Int), w6)
      ∧ xs_recv w6 handle_t.sc buf1 n 0
        = some ((f1.length : Int), f1 ++ buf1.drop f1.length, w7)
      ∧ xs_getsockopt_rcvmore w7 handle_t.sc = (0, 1)
      ∧ xs_recv w7 handle_t.sc buf2 n 0
        = some ((f2.length : Int), f2 ++ buf2.drop f2.length, connected_pair hwm)
      ∧ xs_getsockopt_rcvmore (connected_pair hwm) handle_t.sc = (0, 0))
    ∧ (∀ c : List Nat, 32 ≤ c.length →
        bounce c buf1 buf2 (connected_pair hwm)
          = some (c.take 32 ++ buf2.drop 32, connected_pair hwm)) := by
  refine ⟨?_, fun c hc => bounce_passes hwm c buf1 buf2 hh hc⟩
  refine ⟨pair_state hwm [{ data := f1, more := true }] [] false false,
    pair_state hwm [{ data := f1, more := true }, { data := f2, more := false }] []
      false false,
    pair_state hwm [{ data := f2, more := false }] [] true false,
    pair_state hwm [] [] false false,
    pair_state hwm [] [{ data := f1, more := true }] false false,
    pair_state hwm [] [{ data := f1, more := true }, { data := f2, more := false }]
      false false,
    pair_state hwm [] [{ data := f2, more := false }] false true,
    ?_, ?_, ?_, ?_, ?_, ?_, ?_, ?_, ?_, ?_, ?_, ?_⟩
  · rw [connected_pair_eq, xs_send_sc _ _ _ _ _ _ _ _ (by simp; omega)]
    simp [XS_SNDMORE]
  · rw [xs_send_sc _ _ _ _ _ _ _ _ (by simp; omega)]
    simp [XS_SNDMORE]
  · rw [xs_recv_sb, recv_buffer f1 buf1 n h1]
  · rfl
  · rw [xs_recv_sb, recv_buffer f2 buf2 n h2]
  · rfl
  · rw [xs_send_sb _ _ _ _ _ _ _ _ (by simp; omega)]
    simp [XS_SNDMORE]
  · rw [xs_send_sb _ _ _ _ _ _ _ _ (by simp; omega)]
    simp [XS_SNDMORE]
  · rw [xs_recv_sc, recv_buffer f1 buf1 n h1]
  · rfl
  · rw [xs_recv_sc, recv_buffer f2 buf2 n h2, connected_pair_eq]
  · rfl

theorem bounce_round_trip_witness :
    bounce content (List.replicate 32 0) (List.replicate 32 0) (connected_pair 1000)
      = some (content, connected_pair 1000) :=
  ((bounce_round_trip 1000 32 content content (List.replicate 32 0)
      (List.replicate 32 0) (by decide) (by decide) (by decide)).2 content
      (by decide)).trans (by decide)

end xs
